import Mathlib

/-!
Verification of the IETE-Bot conversation session manager: the bounded
history store (`GeminiService.updateHistory`), the request composer
(`GeminiService.sendMessageStream`), the stream aggregator of
`ChatInterface.processMessage` (text accumulation and citation sources),
the error classification of the older service variant, and
`GeminiService.generateImage`. TypeScript values are embedded shallowly:
optional/`undefined` fields become `Option`, JavaScript string falsiness
(`undefined` or `""`) is made explicit, thrown errors become `Except`.
-/

namespace IeteBot

/-- Role tag of a history entry, `'user' | 'model'` in the source. -/
inductive Role where
  | user
  | model
deriving DecidableEq, Repr

/-- Inline media payload `{ data: base64, mimeType: string }`. -/
structure MediaData where
  data : String
  mimeType : String
deriving DecidableEq, Repr

/-- One element of a turn's `parts` array: `{ text }` or `{ inlineData }`. -/
inductive Part where
  | text (s : String)
  | inlineData (m : MediaData)
deriving DecidableEq, Repr

/-- One history entry `{ role, parts }`. -/
structure Turn where
  role : Role
  parts : List Part
deriving DecidableEq, Repr

/-- JavaScript `x || d` on an optional string: both `undefined` and the
empty string are falsy and select the default `d`. -/
def jsOr (x : Option String) (d : String) : String :=
  match x with
  | none => d
  | some s => if s = "" then d else s

/-- JavaScript falsiness of the optional `process.env.API_KEY` string:
`!apiKey` is true when the variable is absent or the empty string. -/
def isBlankKey : Option String → Bool
  | none => true
  | some s => s == ""

/-- `GeminiService.updateHistory` with the retention bound made explicit:
`this.history.push({ role, parts }); if (this.history.length > bound)
this.history.shift();`. -/
def updateHistoryB (bound : Nat) (hist : List Turn) (role : Role) (parts : List Part) :
    List Turn :=
  let h := hist ++ [⟨role, parts⟩]
  if bound < h.length then h.tail else h

/-- `GeminiService.updateHistory` as written in `geminiService.ts`: the
bound is the constant 10. -/
def updateHistory (hist : List Turn) (role : Role) (parts : List Part) : List Turn :=
  updateHistoryB 10 hist role parts

/-- Replay a sequence of `updateHistory` calls (with bound `bound`)
starting from the empty history created by `initChat`. -/
def runAppendsB (bound : Nat) (ts : List Turn) : List Turn :=
  ts.foldl (fun h t => updateHistoryB bound h t.role t.parts) []

/-- The `thinkingConfig: { thinkingBudget: 0 }` object of the request
configuration. -/
structure ThinkingConfig where
  thinkingBudget : Nat
deriving DecidableEq, Repr

/-- The one tool the composer can attach: `{ googleSearch: {} }`. -/
inductive Tool where
  | googleSearch
deriving DecidableEq, Repr

/-- The `config` object built by `sendMessageStream` in `geminiService.ts`. -/
structure RequestConfig where
  systemInstruction : String
  tools : Option (List Tool)
  thinkingConfig : ThinkingConfig
deriving DecidableEq, Repr

/-- The text-generation model constant `TEXT_MODEL`. -/
def TEXT_MODEL : String := "gemini-3-flash-preview"

/-- The `userParts` array built by `sendMessageStream`: always starts with
`{ text: message }`; the `inlineData` part is pushed only when both
`mediaData?.data` and `mediaData?.mimeType` are truthy (present and
non-empty). -/
def buildUserParts (message : String) (mediaData : Option MediaData) : List Part :=
  let base := [Part.text message]
  match mediaData with
  | some m => if m.data ≠ "" ∧ m.mimeType ≠ "" then base ++ [Part.inlineData m] else base
  | none => base

/-- The `config` value of `sendMessageStream`:
`tools: options.useSearch ? [{ googleSearch: {} }] : undefined`. -/
def buildConfig (sys : String) (useSearch : Bool) : RequestConfig :=
  { systemInstruction := sys
    tools := if useSearch then some [Tool.googleSearch] else none
    thinkingConfig := ⟨0⟩ }

/-- The argument object passed to `ai.models.generateContentStream`. -/
structure ComposedRequest where
  model : String
  contents : List Turn
  config : RequestConfig
deriving DecidableEq, Repr

/-- `GeminiService.sendMessageStream` of `geminiService.ts`. The first
component is the trace of network calls issued (each element the request
passed to `ai.models.generateContentStream`); the second is the outcome:
`getAI()` throws `"Missing API_KEY. Access restricted."` when the key is
absent or empty, before any request is composed or sent; otherwise the
composed request (history snapshot plus the new user turn) is sent in
exactly one streaming call. -/
def sendMessageStream (apiKey : Option String) (systemInstruction : String)
    (history : List Turn) (message : String) (mediaData : Option MediaData)
    (useSearch : Bool) : List ComposedRequest × Except String ComposedRequest :=
  if isBlankKey apiKey then
    ([], Except.error "Missing API_KEY. Access restricted.")
  else
    let req : ComposedRequest :=
      { model := TEXT_MODEL
        contents := history ++ [⟨Role.user, buildUserParts message mediaData⟩]
        config := buildConfig systemInstruction useSearch }
    ([req], Except.ok req)

/-- The submission guard of `ChatInterface.handleSend`:
`if ((!input.trim() && !selectedMedia) || ...) return;` — the UI invokes
`processMessage` (and hence Compose) only when the trimmed input is
non-empty or media is attached. -/
def handleSendSubmits (input : String) (media : Option MediaData) : Bool :=
  !(input.trim == "" && media.isNone)

/-- The `web` field of a grounding chunk: `{ title?, uri? }`. -/
structure Web where
  title : Option String
  uri : Option String
deriving DecidableEq, Repr

/-- One grounding chunk of the provider's grounding metadata. -/
structure GroundingChunk where
  web : Option Web
deriving DecidableEq, Repr

/-- `groundingMetadata` of a response candidate. -/
structure GroundingMetadata where
  groundingChunks : Option (List GroundingChunk)
deriving DecidableEq, Repr

/-- One response candidate as read by the aggregator. -/
structure Candidate where
  groundingMetadata : Option GroundingMetadata
deriving DecidableEq, Repr

/-- One chunk of the streaming response: an optional text delta and the
optional candidate array. -/
structure Chunk where
  text : Option String
  candidates : Option (List Candidate)
deriving DecidableEq, Repr

/-- A citation entry `{ title, uri }` (the source's `GroundingSource`). -/
structure Source where
  title : String
  uri : String
deriving DecidableEq, Repr

/-- The running aggregation state of `processMessage`: the accumulated
text (`fullContent`) and the accumulated citation list (`msg.sources`). -/
structure StreamResult where
  text : String
  sources : List Source
deriving DecidableEq, Repr

/-- The optional-chain read
`chunk.candidates?.[0]?.groundingMetadata?.groundingChunks`. -/
def chunkGrounding (c : Chunk) : Option (List GroundingChunk) :=
  ((c.candidates.bind List.head?).bind Candidate.groundingMetadata).bind
    GroundingMetadata.groundingChunks

/-- The `newSources` expression of `ChatInterface.processMessage`:
`grounding?.map(c => ({title: c.web?.title || 'Institutional Source',
uri: c.web?.uri || ''})).filter(s => s.uri)`. -/
def newSources (c : Chunk) : Option (List Source) :=
  (chunkGrounding c).map fun g =>
    (g.map fun gc =>
        { title := jsOr (gc.web.bind Web.title) "Institutional Source"
          uri := jsOr (gc.web.bind Web.uri) "" }).filter
      fun s => s.uri != ""

/-- One iteration of the `for await (const chunk of stream)` loop of
`ChatInterface.processMessage`: `fullContent += chunk.text || ""` and
`sources: newSources?.length ? [...(msg.sources || []), ...newSources]
: msg.sources`. -/
def stepAgg (st : StreamResult) (c : Chunk) : StreamResult :=
  { text := st.text ++ (c.text.getD "")
    sources :=
      match newSources c with
      | some ns => if ns.length ≠ 0 then st.sources ++ ns else st.sources
      | none => st.sources }

/-- Run the aggregation loop over a finite stream of chunks starting
from the empty result. -/
def runStream (chunks : List Chunk) : StreamResult :=
  chunks.foldl stepAgg { text := "", sources := [] }

/-- A chunk carrying only a text delta (no candidates). -/
def textChunk (s : String) : Chunk :=
  { text := some s, candidates := none }

/-- A chunk carrying a single citation fragment `{title, uri}` and no
text, shaped the way the provider delivers grounding metadata. -/
def citationChunk (title uri : String) : Chunk :=
  { text := none
    candidates := some [⟨some ⟨some [⟨some ⟨some title, some uri⟩⟩]⟩⟩] }

/-- The citation fragments one chunk contributes to the accumulated
sources: its grounding chunks (empty when grounding is absent) mapped to
`{title, uri}` with the source's defaults and filtered to those with a
non-empty uri. -/
def chunkValidSources (c : Chunk) : List Source :=
  (((chunkGrounding c).getD []).map fun gc =>
      { title := jsOr (gc.web.bind Web.title) "Institutional Source"
        uri := jsOr (gc.web.bind Web.uri) "" }).filter
    fun s => s.uri != ""

/-- Whether `pat` occurs as a contiguous run inside `s` (character-list
model of JavaScript `String.includes`). -/
def containsSeq (pat : List Char) : List Char → Bool
  | [] => pat.isEmpty
  | c :: rest => pat.isPrefixOf (c :: rest) || containsSeq pat rest

/-- JavaScript `s.includes(pat)` on strings. -/
def strIncludes (s pat : String) : Bool :=
  containsSeq pat.data s.data

/-- The catch-block classification of the unnamed (older) service
variant's `sendMessageStream`: an error whose message contains "429"
is rethrown as the throttle message carrying the 60-second wait hint;
any other failure becomes a "Technical Fault" wrapping
`error.message || "Unknown processing error"`. -/
def classifyStreamError (msg : Option String) : String :=
  if (match msg with
      | some m => strIncludes m "429"
      | none => false) then
    "Neural cores throttled (Rate Limit). Please wait 60s."
  else
    "Technical Fault: " ++ jsOr msg "Unknown processing error"

/-- `sendMessageStream` of the unnamed (older) service variant
(`src/unnamed/part_000`): fails fast on a blank key; otherwise issues
exactly one provider call carrying the history snapshot plus the new
user turn (the trace lists each call's contents) and, when that call
fails, rethrows the error classified by `classifyStreamError`. There is
no retry loop anywhere in the function. -/
def sendMessageStreamP0 (apiKey : Option String) (history : List Turn)
    (message : String) (mediaData : Option MediaData)
    (outcome : Except (Option String) (List Chunk)) :
    List (List Turn) × Except String (List Chunk) :=
  if isBlankKey apiKey then
    ([], Except.error
      "Configuration Error: API Key not found. Please set API_KEY in your Vercel project settings.")
  else
    let userParts := [Part.text message] ++
      (match mediaData with
       | some m => [Part.inlineData m]
       | none => [])
    ([history ++ [⟨Role.user, userParts⟩]],
      match outcome with
      | Except.ok s => Except.ok s
      | Except.error m => Except.error (classifyStreamError m))

/-- The optional media part of the committed user turn:
`...(media ? [{ inlineData: media }] : [])`. -/
def mediaParts (media : Option MediaData) : List Part :=
  match media with
  | some m => [Part.inlineData m]
  | none => []

/-- The history commitment on normal stream completion in
`ChatInterface.processMessage`: first
`updateHistory('user', [{ text }, ...(media ? [{ inlineData: media }] : [])])`,
then `updateHistory('model', [{ text: fullContent }])`, where
`fullContent` is the accumulated `StreamResult` text. -/
def commitAfterStream (hist : List Turn) (text : String) (media : Option MediaData)
    (res : StreamResult) : List Turn :=
  updateHistory
    (updateHistory hist Role.user ([Part.text text] ++ mediaParts media))
    Role.model [Part.text res.text]

/-- Inline image payload of a response part: `{ data, mimeType? }`. -/
structure InlineData where
  data : String
  mimeType : Option String
deriving DecidableEq, Repr

/-- One part of the image-generation response. -/
structure RespPart where
  text : Option String
  inlineData : Option InlineData
deriving DecidableEq, Repr

/-- The `content` object of an image-generation response candidate. -/
structure RContent where
  parts : Option (List RespPart)
deriving DecidableEq, Repr

/-- One candidate of the image-generation response. -/
structure RCandidate where
  content : Option RContent
deriving DecidableEq, Repr

/-- The image-generation response body. -/
structure GenResponse where
  candidates : Option (List RCandidate)
deriving DecidableEq, Repr

/-- The value `generateImage` returns on success: base64 payload plus a
MIME type. -/
structure ImageResult where
  data : String
  mimeType : String
deriving DecidableEq, Repr

/-- The optional-chain read `response.candidates?.[0]?.content?.parts`. -/
def respParts (r : GenResponse) : Option (List RespPart) :=
  ((r.candidates.bind List.head?).bind RCandidate.content).bind RContent.parts

/-- The `for (const part of parts)` loop of `generateImage`: return the
first part whose `inlineData?.data` is truthy, with
`part.inlineData.mimeType || 'image/png'` as the MIME type. -/
def findImage : List RespPart → Option ImageResult
  | [] => none
  | p :: rest =>
    match p.inlineData with
    | some d =>
      if d.data ≠ "" then some ⟨d.data, jsOr d.mimeType "image/png"⟩ else findImage rest
    | none => findImage rest

/-- `GeminiService.generateImage`: the provider call either throws
(modelled as `Except.error`, caught by the source's `try`/`catch` and
turned into `null`) or returns a response, whose first inline-image part
is extracted; `null` when no part carries image data. -/
def generateImage (outcome : Except (Option String) GenResponse) : Option ImageResult :=
  match outcome with
  | Except.error _ => none
  | Except.ok resp =>
    match respParts resp with
    | some parts => findImage parts
    | none => none

/-- Whether a response part carries truthy inline image data. -/
def hasImageData (p : RespPart) : Bool :=
  match p.inlineData with
  | some d => d.data != ""
  | none => false

/-- Extract a part's image payload, defaulting the MIME type. -/
def extractImage (p : RespPart) : Option ImageResult :=
  p.inlineData.map fun d => ⟨d.data, jsOr d.mimeType "image/png"⟩

end IeteBot

namespace IeteBot

theorem foldl_updateHistoryB (bound : Nat) (ts : List Turn) :
    ∀ h : List Turn, h.length ≤ bound →
      ts.foldl (fun acc t => updateHistoryB bound acc t.role t.parts) h
        = (h ++ ts).drop (h.length + ts.length - bound) := by
  induction ts with
  | nil =>
    intro h hh
    simp [Nat.sub_eq_zero_of_le hh]
  | cons t ts ih =>
    intro h hh
    simp only [List.foldl_cons]
    rcases Nat.lt_or_ge h.length bound with hlt | hge
    · have hstep : updateHistoryB bound h t.role t.parts = h ++ [t] := by
        unfold updateHistoryB
        simp only [List.length_append, List.length_cons, List.length_nil]
        rw [if_neg (by omega)]
      have hlen : (h ++ [t]).length ≤ bound := by
        simp only [List.length_append, List.length_cons, List.length_nil]; omega
      rw [hstep, ih (h ++ [t]) hlen]
      have hlist : (h ++ [t]) ++ ts = h ++ t :: ts := by
        simp
      have hidx : (h ++ [t]).length + ts.length - bound
          = h.length + (t :: ts).length - bound := by
        simp only [List.length_append, List.length_cons, List.length_nil]
        omega
      rw [hlist, hidx]
    · have heq : h.length = bound := Nat.le_antisymm hh hge
      have hstep : updateHistoryB bound h t.role t.parts = (h ++ [t]).tail := by
        unfold updateHistoryB
        simp only [List.length_append, List.length_cons, List.length_nil]
        rw [if_pos (by omega)]
      have hlen : ((h ++ [t]).tail).length ≤ bound := by
        simp only [List.length_tail, List.length_append, List.length_cons,
          List.length_nil]
        omega
      rw [hstep, ih _ hlen]
      have hidx1 : ((h ++ [t]).tail).length + ts.length - bound = ts.length := by
        simp only [List.length_tail, List.length_append, List.length_cons,
          List.length_nil]
        omega
      rw [hidx1, ← List.drop_one]
      have hdropapp : ((h ++ [t]).drop 1) ++ ts = ((h ++ [t]) ++ ts).drop 1 :=
        (List.drop_append_of_le_length (by simp)).symm
      rw [hdropapp, List.drop_drop]
      have hlist : (h ++ [t]) ++ ts = h ++ t :: ts := by
        simp
      have hidx2 : h.length + (t :: ts).length - bound = 1 + ts.length := by
        simp only [List.length_cons]
        omega
      rw [hlist, hidx2]

/-- C1: for every bound and every sequence of `updateHistory` appends
starting from the empty history, the resulting history is exactly the
most recent `bound` appended turns in submission order (the suffix
obtained by dropping all but the last `bound`), hence its length never
exceeds the bound; in particular with bound 3, appending T1..T5 leaves
exactly [T3, T4, T5]. -/
theorem updateHistory_bound_fifo :
    (∀ (bound : Nat) (ts : List Turn),
        runAppendsB bound ts = ts.drop (ts.length - bound)
          ∧ (runAppendsB bound ts).length ≤ bound)
    ∧ runAppendsB 3
        [⟨Role.user, [Part.text "T1"]⟩, ⟨Role.user, [Part.text "T2"]⟩,
         ⟨Role.user, [Part.text "T3"]⟩, ⟨Role.user, [Part.text "T4"]⟩,
         ⟨Role.user, [Part.text "T5"]⟩]
      = [⟨Role.user, [Part.text "T3"]⟩, ⟨Role.user, [Part.text "T4"]⟩,
         ⟨Role.user, [Part.text "T5"]⟩] := by
  constructor
  · intro bound ts
    have h := foldl_updateHistoryB bound ts [] (by simp)
    have heq : runAppendsB bound ts = ts.drop (ts.length - bound) := by
      unfold runAppendsB
      rw [h]
      simp
    refine ⟨heq, ?_⟩
    rw [heq, List.length_drop]
    omega
  · decide

/-- C4: when no API key is configured (`process.env.API_KEY` absent or
empty, so `!apiKey` holds), `sendMessageStream` fails with the
missing-credential error "Missing API_KEY. Access restricted." raised by
`getAI()` before the request is composed, and the network-call trace is
empty: no network call is attempted. -/
theorem missing_key_fail_fast (apiKey : Option String) (sys : String)
    (hist : List Turn) (msg : String) (media : Option MediaData) (useSearch : Bool)
    (h : isBlankKey apiKey = true) :
    sendMessageStream apiKey sys hist msg media useSearch
      = ([], Except.error "Missing API_KEY. Access restricted.") := by
  simp [sendMessageStream, h]

/-- Witness for C4 at the concrete input where the key is unset. -/
theorem missing_key_fail_fast_witness :
    isBlankKey none = true
      ∧ sendMessageStream none "sys" [] "hello" none false
          = ([], Except.error "Missing API_KEY. Access restricted.") :=
  ⟨by decide, missing_key_fail_fast none "sys" [] "hello" none false (by decide)⟩

/-- C7: composing a request with both text and media (the media payload
and MIME type being present and non-empty, as the source's truthiness
test requires) always yields the user part sequence [text, media] in
that order, never [media, text]. -/
theorem part_order_text_media (msg : String) (m : MediaData)
    (hd : m.data ≠ "") (hm : m.mimeType ≠ "") :
    buildUserParts msg (some m) = [Part.text msg, Part.inlineData m] := by
  simp [buildUserParts, hd, hm]

/-- Witness for C7 at a concrete message and media attachment. -/
theorem part_order_text_media_witness :
    ("imgdata" : String) ≠ "" ∧ ("image/png" : String) ≠ ""
      ∧ buildUserParts "hello" (some ⟨"imgdata", "image/png"⟩)
          = [Part.text "hello", Part.inlineData ⟨"imgdata", "image/png"⟩] :=
  ⟨by decide, by decide,
    part_order_text_media "hello" ⟨"imgdata", "image/png"⟩ (by decide) (by decide)⟩

/-- C8: the composed request configuration carries the googleSearch tool
if and only if `useSearch` is true; with `useSearch = false` the `tools`
field is `undefined` (no search-tool flag). -/
theorem search_tool_iff (sys : String) (useSearch : Bool) :
    ((buildConfig sys useSearch).tools = some [Tool.googleSearch] ↔ useSearch = true)
    ∧ ((buildConfig sys useSearch).tools = none ↔ useSearch = false) := by
  cases useSearch <;> simp [buildConfig]

/-- C3 counterexample: with a configured key, calling `sendMessageStream`
with the empty message and no media does not fail with any error:
it issues exactly one network call, and that call's new user turn
carries the empty text part `{ text: "" }`. -/
theorem empty_input_counterexample :
    sendMessageStream (some "key") "sys" [] "" none false
      = ([{ model := TEXT_MODEL
            contents := [⟨Role.user, [Part.text ""]⟩]
            config := buildConfig "sys" false }],
         Except.ok { model := TEXT_MODEL
                     contents := [⟨Role.user, [Part.text ""]⟩]
                     config := buildConfig "sys" false })
    ∧ (sendMessageStream (some "key") "sys" [] "" none false).1.length = 1 := by
  constructor
  · rfl
  · rfl

/-- C3 amended: `sendMessageStream` itself performs no empty-input
validation — with any configured key it composes and sends a request
whose new user parts are exactly [{text: ""}] even when the message is
empty and no media is present; the empty-input rejection lives one layer
up, in `ChatInterface.handleSend`, which refuses to submit exactly when
the trimmed input is empty and no media is attached. -/
theorem empty_input_guard_location :
    (∀ (k sys : String) (hist : List Turn) (useSearch : Bool), k ≠ "" →
        sendMessageStream (some k) sys hist "" none useSearch
          = ([{ model := TEXT_MODEL
                contents := hist ++ [⟨Role.user, [Part.text ""]⟩]
                config := buildConfig sys useSearch }],
             Except.ok { model := TEXT_MODEL
                         contents := hist ++ [⟨Role.user, [Part.text ""]⟩]
                         config := buildConfig sys useSearch }))
    ∧ ∀ (input : String) (media : Option MediaData),
        handleSendSubmits input media = false ↔ (input.trim = "" ∧ media = none) := by
  constructor
  · intro k sys hist useSearch hk
    have hb : isBlankKey (some k) = false := by
      simp [isBlankKey, hk]
    simp [sendMessageStream, hb, buildUserParts]
  · intro input media
    cases media <;> simp [handleSendSubmits]

theorem join_cons_str (s : String) (ss : List String) :
    String.join (s :: ss) = s ++ String.join ss := by
  ext1
  simp

theorem str_append_assoc (a b c : String) : (a ++ b) ++ c = a ++ (b ++ c) := by
  ext1
  simp

theorem foldl_stepAgg_text (chunks : List Chunk) :
    ∀ st : StreamResult, (chunks.foldl stepAgg st).text
      = st.text ++ String.join (chunks.map fun c => c.text.getD "") := by
  induction chunks with
  | nil =>
    intro st
    ext1
    simp [String.join]
  | cons c cs ih =>
    intro st
    rw [List.foldl_cons, ih, List.map_cons, join_cons_str, ← str_append_assoc]
    rfl

/-- C5: the final accumulated `StreamResult.text` equals the
concatenation of all chunk text deltas (`chunk.text || ""`) in arrival
order, and feeding any string split into arbitrary consecutive pieces
through the aggregator reconstructs exactly the join of those pieces
(round-trip). -/
theorem text_accumulation_lossless :
    (∀ chunks : List Chunk,
        (runStream chunks).text = String.join (chunks.map fun c => c.text.getD ""))
    ∧ ∀ ss : List String, (runStream (ss.map textChunk)).text = String.join ss := by
  have hmain : ∀ chunks : List Chunk,
      (runStream chunks).text = String.join (chunks.map fun c => c.text.getD "") := by
    intro chunks
    unfold runStream
    rw [foldl_stepAgg_text]
    ext1
    simp
  refine ⟨hmain, fun ss => ?_⟩
  rw [hmain, List.map_map]
  exact congrArg String.join (List.map_id' ss)

theorem ite_append_sources (st l : List Source) :
    (if l.length ≠ 0 then st ++ l else st) = st ++ l := by
  by_cases hz : l.length ≠ 0
  · rw [if_pos hz]
  · rw [if_neg hz]
    push_neg at hz
    rw [List.length_eq_zero] at hz
    simp [hz]

theorem chunkValidSources_eq (c : Chunk) :
    chunkValidSources c = (newSources c).getD [] := by
  unfold chunkValidSources newSources
  cases chunkGrounding c <;> rfl

theorem stepAgg_sources (st : StreamResult) (c : Chunk) :
    (stepAgg st c).sources = st.sources ++ chunkValidSources c := by
  rw [chunkValidSources_eq]
  unfold stepAgg
  cases h : newSources c <;> simp [h, ite_append_sources]

theorem foldl_stepAgg_sources (chunks : List Chunk) :
    ∀ st : StreamResult, (chunks.foldl stepAgg st).sources
      = st.sources ++ (chunks.map chunkValidSources).flatten := by
  induction chunks with
  | nil =>
    intro st
    simp
  | cons c cs ih =>
    intro st
    rw [List.foldl_cons, ih, List.map_cons, List.flatten_cons, stepAgg_sources,
      List.append_assoc]

/-- C2 counterexample: streaming the citation fragments {A,u1}, {B,u2},
{A2,u1} yields a final source list with three entries — the second
fragment for u1 is appended as well, so the result is not "exactly two
entries with first-seen title for u1". -/
theorem citation_dedup_counterexample :
    (runStream [citationChunk "A" "u1", citationChunk "B" "u2",
        citationChunk "A2" "u1"]).sources
      = [⟨"A", "u1"⟩, ⟨"B", "u2"⟩, ⟨"A2", "u1"⟩]
    ∧ (runStream [citationChunk "A" "u1", citationChunk "B" "u2",
        citationChunk "A2" "u1"]).sources.length ≠ 2 := by
  constructor
  · rfl
  · decide

/-- C2 amended: the aggregator discards citation fragments lacking a uri
(mapping an absent uri to the falsy empty string and filtering it out),
but performs no deduplication: every fragment with a non-empty uri is
appended to `StreamResult.sources` in arrival order, duplicates of an
already-seen uri included — the accumulated sources are exactly the
concatenation of each chunk's uri-filtered fragments, and appending one
more citation chunk always appends its valid fragments regardless of
which uris were seen before. -/
theorem citation_sources_no_dedup :
    (∀ chunks : List Chunk,
        (runStream chunks).sources = (chunks.map chunkValidSources).flatten)
    ∧ ∀ (cs : List Chunk) (c : Chunk),
        (runStream (cs ++ [c])).sources
          = (runStream cs).sources ++ chunkValidSources c := by
  constructor
  · intro chunks
    unfold runStream
    rw [foldl_stepAgg_sources]
    simp
  · intro cs c
    unfold runStream
    rw [List.foldl_append]
    simp only [List.foldl_cons, List.foldl_nil]
    exact stepAgg_sources _ c

/-- C6: when the provider call fails with a message reporting a rate
limit (one containing "429"), the service rethrows the throttle error
"Neural cores throttled (Rate Limit). Please wait 60s." — a message that
carries the 60-second backoff hint — and the core performs no automatic
retry: with a configured key exactly one provider call is issued per
invocation, whatever the outcome. -/
theorem throttle_classification (apiKey : Option String) (history : List Turn)
    (message : String) (mediaData : Option MediaData) (m : String)
    (outcome : Except (Option String) (List Chunk))
    (hk : isBlankKey apiKey = false) (h429 : strIncludes m "429" = true) :
    (sendMessageStreamP0 apiKey history message mediaData
        (Except.error (some m))).2
      = Except.error "Neural cores throttled (Rate Limit). Please wait 60s."
    ∧ strIncludes "Neural cores throttled (Rate Limit). Please wait 60s." "60s" = true
    ∧ (sendMessageStreamP0 apiKey history message mediaData outcome).1.length = 1 := by
  refine ⟨?_, by decide, ?_⟩
  · simp [sendMessageStreamP0, hk, classifyStreamError, h429]
  · simp [sendMessageStreamP0, hk]

/-- Witness for C6 at a concrete 429 failure. -/
theorem throttle_classification_witness :
    isBlankKey (some "key") = false
    ∧ strIncludes "got status 429 from provider" "429" = true
    ∧ ((sendMessageStreamP0 (some "key") [] "hi" none
          (Except.error (some "got status 429 from provider"))).2
        = Except.error "Neural cores throttled (Rate Limit). Please wait 60s."
      ∧ strIncludes "Neural cores throttled (Rate Limit). Please wait 60s." "60s" = true
      ∧ (sendMessageStreamP0 (some "key") [] "hi" none (Except.ok [])).1.length = 1) :=
  ⟨by decide, by decide,
    throttle_classification (some "key") [] "hi" none "got status 429 from provider"
      (Except.ok []) (by decide) (by decide)⟩

theorem updateHistory_shape (hist : List Turn) (r : Role) (p : List Part) :
    ∃ pre : List Turn, updateHistory hist r p = pre ++ [⟨r, p⟩] := by
  simp only [updateHistory, updateHistoryB]
  by_cases hc : 10 < (hist ++ [(⟨r, p⟩ : Turn)]).length
  · rw [if_pos hc]
    have hne : hist ≠ [] := by
      intro h
      subst h
      simp at hc
    obtain ⟨q, hist', hq⟩ := List.exists_cons_of_ne_nil hne
    subst hq
    exact ⟨hist', by simp⟩
  · rw [if_neg hc]
    exact ⟨hist, rfl⟩

/-- C9: on normal stream completion the committed history ends with
exactly the original user turn followed by the assistant turn built from
the final accumulated text, in that order; the accumulated citations are
never written into it — replacing the stream result's sources by any
other list leaves the committed history unchanged. -/
theorem commit_order_no_citations (hist : List Turn) (text : String)
    (media : Option MediaData) (res : StreamResult) :
    (∃ pre : List Turn,
        commitAfterStream hist text media res
          = pre ++ [⟨Role.user, [Part.text text] ++ mediaParts media⟩,
                    ⟨Role.model, [Part.text res.text]⟩])
    ∧ ∀ srcs : List Source,
        commitAfterStream hist text media ⟨res.text, srcs⟩
          = commitAfterStream hist text media res := by
  constructor
  · obtain ⟨pre1, h1⟩ :=
      updateHistory_shape hist Role.user ([Part.text text] ++ mediaParts media)
    have hc : commitAfterStream hist text media res
        = updateHistory (pre1 ++ [⟨Role.user, [Part.text text] ++ mediaParts media⟩])
            Role.model [Part.text res.text] := by
      unfold commitAfterStream
      rw [h1]
    rw [hc]
    simp only [updateHistory, updateHistoryB]
    by_cases hlen : 10 <
        ((pre1 ++ [(⟨Role.user, [Part.text text] ++ mediaParts media⟩ : Turn)])
          ++ [(⟨Role.model, [Part.text res.text]⟩ : Turn)]).length
    · rw [if_pos hlen]
      have hp : pre1 ≠ [] := by
        intro hnil
        subst hnil
        simp at hlen
      obtain ⟨q, pre1', hq⟩ := List.exists_cons_of_ne_nil hp
      subst hq
      exact ⟨pre1', by simp⟩
    · rw [if_neg hlen]
      exact ⟨pre1, by simp⟩
  · intro srcs
    rfl

theorem findImage_eq (ps : List RespPart) :
    findImage ps = (ps.find? hasImageData).bind extractImage := by
  induction ps with
  | nil => rfl
  | cons p rest ih =>
    cases hd : p.inlineData with
    | none =>
      rw [List.find?_cons_of_neg _ (by simp [hasImageData, hd])]
      simp [findImage, hd, ih]
    | some d =>
      by_cases hz : d.data = ""
      · rw [List.find?_cons_of_neg _ (by simp [hasImageData, hd, hz])]
        simp [findImage, hd, hz, ih]
      · rw [List.find?_cons_of_pos _ (by simp [hasImageData, hd, hz])]
        simp [findImage, hd, hz, extractImage]

/-- C10: `generateImage` never throws — a provider failure is caught and
the call resolves to `null` — and on success it returns the first
response part carrying truthy inline image data, with the MIME type
defaulting to "image/png" when the provider omits it, and `null` when no
part carries image data (the `find?`/`extract` characterization covers
both). -/
theorem generateImage_total_first_image :
    (∀ e : Option String, generateImage (Except.error e) = none)
    ∧ (∀ resp : GenResponse,
        generateImage (Except.ok resp)
          = (respParts resp).bind fun ps => (ps.find? hasImageData).bind extractImage)
    ∧ ∀ dat : String,
        extractImage ⟨none, some ⟨dat, none⟩⟩ = some ⟨dat, "image/png"⟩ := by
  refine ⟨fun e => rfl, fun resp => ?_, fun dat => rfl⟩
  show (match respParts resp with
        | some parts => findImage parts
        | none => none)
      = (respParts resp).bind fun ps => (ps.find? hasImageData).bind extractImage
  cases respParts resp with
  | none => rfl
  | some ps => exact findImage_eq ps

/-- Witness for the amended C3 at concrete inputs. -/
theorem empty_input_guard_location_witness :
    ("key" : String) ≠ ""
      ∧ sendMessageStream (some "key") "sys2" [] "" none true
          = ([{ model := TEXT_MODEL
                contents := [⟨Role.user, [Part.text ""]⟩]
                config := buildConfig "sys2" true }],
             Except.ok { model := TEXT_MODEL
                         contents := [⟨Role.user, [Part.text ""]⟩]
                         config := buildConfig "sys2" true })
      ∧ (handleSendSubmits "" none = false
          ↔ (("" : String).trim = "" ∧ (none : Option MediaData) = none)) :=
  ⟨by decide,
   by simpa using empty_input_guard_location.1 "key" "sys2" [] true (by decide),
   empty_input_guard_location.2 "" none⟩

end IeteBot
